import Mathlib

/-!
Verification of the TTNet repository's coordinate/crop arithmetic, data-target
construction and weight-dictionary utilities, shallowly embedded in Lean.

Conventions of the embedding:

* Python/PyTorch floats are modelled by `ℚ`.  Every concrete float constant
  appearing in the verified code paths (`w_ratio = 1920/320 = 6.0`,
  `h_ratio = 1080/128 = 8.4375`, `0.01`, halves of even integers) is a dyadic
  rational that double-precision arithmetic represents and combines exactly at
  the magnitudes involved, so the rational model computes the same values the
  Python code does.
* Python's `int(...)` on a non-negative value is the floor; on a negative value
  it truncates towards zero.  `pyInt` models this exactly.
* A batched tensor of images is a `List` of images; an image with channels is a
  function `ℕ → ℕ → ℕ → ℚ` (channel, row, column).  A predicted ball heatmap
  (shape `(448,)` = `w_resize + h_resize`) is a `List ℚ`.
* Python dicts (for `load_weights_local_stage`) are association lists where a
  later binding overwrites an earlier one, matching dict update semantics.
-/

set_option maxRecDepth 4000

namespace TTNetV

/-- Python `int()` applied to a rational: truncation towards zero. -/
def pyInt (q : ℚ) : ℤ :=
  if q < 0 then -⌊-q⌋ else ⌊q⌋

/-- An original or resized image batch element: channel, row, column to value. -/
abbrev Image : Type := ℕ → ℕ → ℕ → ℚ

/-- A global-stage ball heatmap, shape `(w_resize + h_resize,)`. -/
abbrev Heatmap : Type := List ℚ

/-- Network input width after resizing (`input_size[0]` = 320). -/
def w_resize : ℕ := 320

/-- Network input height after resizing (`input_size[1]` = 128). -/
def h_resize : ℕ := 128

/-- Original frame width (1920), per the documented input shape
`(batch_size, 27, 1080, 1920)`. -/
def w_original : ℕ := 1920

/-- Original frame height (1080). -/
def h_original : ℕ := 1080

/-- Helper for `torch.argmax`: scans the list keeping the first index at which
the maximum occurs.  `i` is the index of the head of the remaining list, `bi`
the best index so far, `bv` the best value so far. -/
def argmaxAux : ℕ → ℕ → ℚ → List ℚ → ℕ
  | _, bi, _, [] => bi
  | i, bi, bv, a :: rest =>
      if bv < a then argmaxAux (i + 1) i a rest else argmaxAux (i + 1) bi bv rest

/-- `torch.argmax` on a 1-D tensor: index of the first maximal entry
(0 on the empty tensor; the code never takes this branch). -/
def argmaxList : List ℚ → ℕ
  | [] => 0
  | a :: rest => argmaxAux 1 0 a rest

/-- `mask = pred_ball_global > 0.01; pred_ball_global_mask = pred_ball_global * mask`
(TTNet.py lines 191-192): entries not exceeding `0.01` are zeroed. -/
def maskedPred (pred : Heatmap) : Heatmap :=
  pred.map (fun v => if (1 : ℚ) / 100 < v then v else 0)

/-- Ball position in resized-grid coordinates chosen by `crop_original_batch`
(TTNet.py lines 196-205): the x half is `masked[:w_resize]`, the y half
`masked[w_resize:]`; if either half sums to zero the centre `(w_resize/2,
h_resize/2)` is assumed, otherwise the argmax of each half is taken. -/
def ballPosGrid (pred : Heatmap) : ℕ × ℕ :=
  let masked := maskedPred pred
  let px := masked.take w_resize
  let py := masked.drop w_resize
  if px.sum = 0 ∨ py.sum = 0 then
    (w_resize / 2, h_resize / 2)
  else
    (argmaxList px, argmaxList py)

/-- `ball_pos_x = int(ball_pos_x * w_ratio); ball_pos_y = int(ball_pos_y * h_ratio)`
(TTNet.py lines 207-209) with `w_ratio = w_original / w_resize` and
`h_ratio = h_original / h_resize`.  The float products are exact dyadic
rationals here, and `int` of a non-negative value is the floor, i.e. natural
division of the integer products. -/
def ballPosOriginal (pred : Heatmap) : ℕ × ℕ :=
  let g := ballPosGrid pred
  (g.1 * w_original / w_resize, g.2 * h_original / h_resize)

/-- `TTNet.get_crop_params` (TTNet.py lines 227-235), on integers. -/
def get_crop_params (x_center y_center wr hr wo ho : ℤ) : ℤ × ℤ × ℤ × ℤ :=
  let x_min := max 0 (x_center - wr / 2)
  let y_min := max 0 (y_center - hr / 2)
  let x_max := min wo (x_min + wr)
  let y_max := min ho (y_min + hr)
  (x_min, x_max, y_min, y_max)

/-- The crop window `(x_min, x_max, y_min, y_max)` that `crop_original_batch`
derives for one batch element from a global heatmap (TTNet.py line 211). -/
def cropWindow (pred : Heatmap) : ℤ × ℤ × ℤ × ℤ :=
  let p := ballPosOriginal pred
  get_crop_params (p.1 : ℤ) (p.2 : ℤ) (w_resize : ℤ) (h_resize : ℤ)
    (w_original : ℤ) (h_original : ℤ)

def cropXmin (pred : Heatmap) : ℤ := (cropWindow pred).1

def cropXmax (pred : Heatmap) : ℤ := (cropWindow pred).2.1

def cropYmin (pred : Heatmap) : ℤ := (cropWindow pred).2.2.1

def cropYmax (pred : Heatmap) : ℤ := (cropWindow pred).2.2.2

/-- `t[y0:y0+h, x0:x0+w] = src` on a 2-D plane: the pointwise meaning of an
in-bounds slice assignment whose source has shape `(h, w)`. -/
def sliceAssign (base src : ℕ → ℕ → ℚ) (y0 h x0 w : ℕ) : ℕ → ℕ → ℚ :=
  fun y x =>
    if y0 ≤ y ∧ y < y0 + h ∧ x0 ≤ x ∧ x < x0 + w then
      src (y - y0) (x - x0)
    else
      base y x

/-- `h_crop = y_max - y_min` (TTNet.py line 215). -/
def hCrop (pred : Heatmap) : ℤ := cropYmax pred - cropYmin pred

/-- `w_crop = x_max - x_min` (TTNet.py line 216). -/
def wCrop (pred : Heatmap) : ℤ := cropXmax pred - cropXmin pred

/-- `x_pad = int((self.w_resize - w_crop) / 2)` (TTNet.py line 218); the
argument is non-negative, so `int` is floor division by 2. -/
def xPad (pred : Heatmap) : ℤ := ((w_resize : ℤ) - wCrop pred) / 2

/-- `y_pad = int((self.h_resize - h_crop) / 2)` (TTNet.py line 219). -/
def yPad (pred : Heatmap) : ℤ := ((h_resize : ℤ) - hCrop pred) / 2

/-- One batch element of `TTNet.crop_original_batch` (TTNet.py lines 196-223):
derive the crop window from the global heatmap, then either copy the crop
(`input_ball_local[idx,:,:,:] = original[idx,:,y_min:y_max,x_min:x_max]`) when
it has full size, or write it centred into the all-zero tensor
(`input_ball_local[idx,:,y_pad:y_pad+h_crop,x_pad:x_pad+w_crop] = ...`). -/
def cropOriginal (original : Image) (pred : Heatmap) : Image :=
  fun c =>
    if hCrop pred ≠ (h_resize : ℤ) ∨ wCrop pred ≠ (w_resize : ℤ) then
      sliceAssign (fun _ _ => 0)
        (fun dy dx => original c ((cropYmin pred).toNat + dy) ((cropXmin pred).toNat + dx))
        (yPad pred).toNat (hCrop pred).toNat (xPad pred).toNat (wCrop pred).toNat
    else
      sliceAssign (fun _ _ => 0)
        (fun dy dx => original c ((cropYmin pred).toNat + dy) ((cropXmin pred).toNat + dx))
        0 h_resize 0 w_resize

/-- `TTNet.crop_original_batch` over a batch: the loop over `idx` maps
`cropOriginal` across the batch.  The `resized` argument only supplies the
shape for `torch.zeros_like` in the source and carries no data. -/
def crop_original_batch (originals : List Image) (resized : List Image)
    (preds : List Heatmap) : List Image :=
  let _ := resized
  List.zipWith cropOriginal originals preds

/-! Basic bounds on the argmax and the derived ball positions. -/

lemma argmaxAux_lt (l : List ℚ) :
    ∀ (i bi : ℕ) (bv : ℚ) (n : ℕ), bi < n → i + l.length ≤ n →
      argmaxAux i bi bv l < n := by
  induction l with
  | nil =>
      intro i bi bv n h1 _
      simpa [argmaxAux] using h1
  | cons a rest ih =>
      intro i bi bv n h1 h2
      simp only [List.length_cons] at h2
      simp only [argmaxAux]
      split
      · exact ih (i + 1) i a n (by omega) (by omega)
      · exact ih (i + 1) bi bv n h1 (by omega)

lemma argmaxList_lt_length (l : List ℚ) (h : l ≠ []) :
    argmaxList l < l.length := by
  cases l with
  | nil => exact absurd rfl h
  | cons a rest =>
      simp only [argmaxList, List.length_cons]
      exact argmaxAux_lt rest 1 0 a (rest.length + 1) (by omega) (by omega)

lemma ballPosGrid_lt (pred : Heatmap) (h : pred.length = 448) :
    (ballPosGrid pred).1 < 320 ∧ (ballPosGrid pred).2 < 128 := by
  have hm : (maskedPred pred).length = 448 := by simp [maskedPred, h]
  have hpx : ((maskedPred pred).take w_resize).length = 320 := by
    simp [hm, w_resize]
  have hpy : ((maskedPred pred).drop w_resize).length = 128 := by
    simp [hm, w_resize]
  simp only [ballPosGrid]
  split
  · exact ⟨by norm_num [w_resize], by norm_num [h_resize]⟩
  · constructor
    · have := argmaxList_lt_length ((maskedPred pred).take w_resize)
        (by intro hnil; rw [hnil] at hpx; simp at hpx)
      omega
    · have := argmaxList_lt_length ((maskedPred pred).drop w_resize)
        (by intro hnil; rw [hnil] at hpy; simp at hpy)
      omega

lemma ballPosOriginal_le (pred : Heatmap) (h : pred.length = 448) :
    (ballPosOriginal pred).1 ≤ 1914 ∧ (ballPosOriginal pred).2 ≤ 1071 := by
  obtain ⟨hx, hy⟩ := ballPosGrid_lt pred h
  simp only [ballPosOriginal, w_original, h_original, w_resize, h_resize]
  constructor
  · have : (ballPosGrid pred).1 * 1920 ≤ 319 * 1920 :=
      Nat.mul_le_mul_right _ (by omega)
    calc (ballPosGrid pred).1 * 1920 / 320 ≤ 319 * 1920 / 320 :=
          Nat.div_le_div_right this
      _ = 1914 := by norm_num
  · have : (ballPosGrid pred).2 * 1080 ≤ 127 * 1080 :=
      Nat.mul_le_mul_right _ (by omega)
    calc (ballPosGrid pred).2 * 1080 / 128 ≤ 127 * 1080 / 128 :=
          Nat.div_le_div_right this
      _ = 1071 := by norm_num

/-- C1: crop bounds are always clamped to the image.  For every global
heatmap of the documented shape `(448,)` the crop window returned by
`get_crop_params` inside `crop_original_batch` satisfies
`0 ≤ x_min ≤ x_max ≤ w_original`, `0 ≤ y_min ≤ y_max ≤ h_original`,
`x_max - x_min ≤ w_resize`, `y_max - y_min ≤ h_resize`, and the centred-pad
destination offsets `x_pad = (w_resize - w_crop)/2`, `y_pad = (h_resize -
h_crop)/2` are non-negative with `x_pad + w_crop ≤ w_resize` and
`y_pad + h_crop ≤ h_resize`, so every tensor index used by
`crop_original_batch` is in range and the function is total. -/
theorem crop_params_in_bounds (pred : Heatmap) (h : pred.length = 448) :
    0 ≤ cropXmin pred ∧ cropXmin pred ≤ cropXmax pred ∧
    cropXmax pred ≤ 1920 ∧ cropXmax pred - cropXmin pred ≤ 320 ∧
    0 ≤ cropYmin pred ∧ cropYmin pred ≤ cropYmax pred ∧
    cropYmax pred ≤ 1080 ∧ cropYmax pred - cropYmin pred ≤ 128 ∧
    0 ≤ ((w_resize : ℤ) - (cropXmax pred - cropXmin pred)) / 2 ∧
    ((w_resize : ℤ) - (cropXmax pred - cropXmin pred)) / 2 +
      (cropXmax pred - cropXmin pred) ≤ 320 ∧
    0 ≤ ((h_resize : ℤ) - (cropYmax pred - cropYmin pred)) / 2 ∧
    ((h_resize : ℤ) - (cropYmax pred - cropYmin pred)) / 2 +
      (cropYmax pred - cropYmin pred) ≤ 128 := by
  obtain ⟨hx, hy⟩ := ballPosOriginal_le pred h
  simp only [cropXmin, cropXmax, cropYmin, cropYmax, cropWindow,
    get_crop_params, w_resize, h_resize, w_original, h_original]
  omega

/-- Witness for C1 at the all-zero heatmap. -/
theorem crop_params_in_bounds_witness :
    (List.replicate 448 (0 : ℚ)).length = 448 ∧
    (0 ≤ cropXmin (List.replicate 448 (0 : ℚ)) ∧
     cropXmin (List.replicate 448 (0 : ℚ)) ≤ cropXmax (List.replicate 448 (0 : ℚ)) ∧
     cropXmax (List.replicate 448 (0 : ℚ)) ≤ 1920 ∧
     cropXmax (List.replicate 448 (0 : ℚ)) - cropXmin (List.replicate 448 (0 : ℚ)) ≤ 320 ∧
     0 ≤ cropYmin (List.replicate 448 (0 : ℚ)) ∧
     cropYmin (List.replicate 448 (0 : ℚ)) ≤ cropYmax (List.replicate 448 (0 : ℚ)) ∧
     cropYmax (List.replicate 448 (0 : ℚ)) ≤ 1080 ∧
     cropYmax (List.replicate 448 (0 : ℚ)) - cropYmin (List.replicate 448 (0 : ℚ)) ≤ 128 ∧
     0 ≤ ((w_resize : ℤ) - (cropXmax (List.replicate 448 (0 : ℚ)) - cropXmin (List.replicate 448 (0 : ℚ)))) / 2 ∧
     ((w_resize : ℤ) - (cropXmax (List.replicate 448 (0 : ℚ)) - cropXmin (List.replicate 448 (0 : ℚ)))) / 2 +
       (cropXmax (List.replicate 448 (0 : ℚ)) - cropXmin (List.replicate 448 (0 : ℚ))) ≤ 320 ∧
     0 ≤ ((h_resize : ℤ) - (cropYmax (List.replicate 448 (0 : ℚ)) - cropYmin (List.replicate 448 (0 : ℚ)))) / 2 ∧
     ((h_resize : ℤ) - (cropYmax (List.replicate 448 (0 : ℚ)) - cropYmin (List.replicate 448 (0 : ℚ)))) / 2 +
       (cropYmax (List.replicate 448 (0 : ℚ)) - cropYmin (List.replicate 448 (0 : ℚ))) ≤ 128) :=
  ⟨by rw [List.length_replicate], crop_params_in_bounds (List.replicate 448 (0 : ℚ))
    (by rw [List.length_replicate])⟩

/-- C8: the centre fallback of `crop_original_batch`.  If, after zeroing
entries not exceeding `0.01`, the x half or the y half of the masked global
prediction sums to zero, the grid ball position used for cropping is
`(w_resize/2, h_resize/2) = (160, 64)`, which scales to the centre
`(960, 540)` of the 1920x1080 original image and yields the centred crop
window `(800, 1120, 476, 604)`; in particular a crop centre is defined for
every possible global prediction. -/
theorem crop_center_fallback (pred : Heatmap)
    (h : ((maskedPred pred).take w_resize).sum = 0 ∨
         ((maskedPred pred).drop w_resize).sum = 0) :
    ballPosGrid pred = (w_resize / 2, h_resize / 2) ∧
    ballPosOriginal pred = (960, 540) ∧
    cropWindow pred = (800, 1120, 476, 604) := by
  have hg : ballPosGrid pred = (w_resize / 2, h_resize / 2) := by
    simp only [ballPosGrid]
    rw [if_pos h]
  refine ⟨hg, ?_, ?_⟩
  · simp only [ballPosOriginal, hg, w_resize, h_resize, w_original, h_original]
  · simp only [cropWindow, ballPosOriginal, hg, get_crop_params,
      w_resize, h_resize, w_original, h_original]
    norm_num

/-- Witness for C8 at the all-zero heatmap. -/
theorem crop_center_fallback_witness :
    ((maskedPred (List.replicate 448 (0 : ℚ))).take w_resize).sum = 0 ∧
    (ballPosGrid (List.replicate 448 (0 : ℚ)) = (w_resize / 2, h_resize / 2) ∧
     ballPosOriginal (List.replicate 448 (0 : ℚ)) = (960, 540) ∧
     cropWindow (List.replicate 448 (0 : ℚ)) = (800, 1120, 476, 604)) := by
  have hmask : maskedPred (List.replicate 448 (0 : ℚ)) = List.replicate 448 (0 : ℚ) := by
    simp only [maskedPred, List.map_replicate]
    norm_num
  have h0 : ((maskedPred (List.replicate 448 (0 : ℚ))).take w_resize).sum = 0 := by
    simp only [hmask, List.take_replicate, List.sum_replicate, smul_zero]
  exact ⟨h0, crop_center_fallback (List.replicate 448 (0 : ℚ)) (Or.inl h0)⟩

/-! Evaluation helpers for the argmax on structured concrete heatmaps. -/

lemma argmaxAux_replicate_append (n : ℕ) (c : ℚ) (rest : List ℚ) :
    ∀ (i bi : ℕ) (bv : ℚ), ¬ bv < c →
      argmaxAux i bi bv (List.replicate n c ++ rest) = argmaxAux (i + n) bi bv rest := by
  induction n with
  | zero => intro i bi bv _; simp [List.replicate]
  | succ k ih =>
      intro i bi bv h
      rw [List.replicate_succ, List.cons_append]
      simp only [argmaxAux, if_neg h]
      rw [ih (i + 1) bi bv h]
      have : i + 1 + k = i + (k + 1) := by omega
      rw [this]

lemma argmaxAux_replicate (n : ℕ) (c : ℚ) (i bi : ℕ) (bv : ℚ) (h : ¬ bv < c) :
    argmaxAux i bi bv (List.replicate n c) = bi := by
  have := argmaxAux_replicate_append n c [] i bi bv h
  simpa [argmaxAux] using this

/-- The argmax of `c :: replicate n 0` is 0 when `0 ≤ c`. -/
lemma argmaxList_peak_head (n : ℕ) (c : ℚ) (h : ¬ c < 0) :
    argmaxList (c :: List.replicate n (0 : ℚ)) = 0 := by
  simp only [argmaxList]
  exact argmaxAux_replicate n 0 1 0 c h

/-- The argmax of `replicate m 0 ++ c :: replicate n 0` is `m` when `0 < c`. -/
lemma argmaxList_peak_mid (m n : ℕ) (c : ℚ) (hm : 0 < m) (hc : 0 < c) :
    argmaxList (List.replicate m (0 : ℚ) ++ (c :: List.replicate n (0 : ℚ))) = m := by
  obtain ⟨k, rfl⟩ : ∃ k, m = k + 1 := ⟨m - 1, by omega⟩
  rw [List.replicate_succ, List.cons_append]
  simp only [argmaxList]
  rw [argmaxAux_replicate_append k 0 _ 1 0 0 (by norm_num)]
  simp only [argmaxAux, if_pos hc]
  rw [argmaxAux_replicate n 0 _ _ c (by exact not_lt.mpr hc.le)]
  omega

/-- A global heatmap whose masked argmax lies at grid position `(0, 0)`:
value 1 at index 0 (x half) and at index 320 (start of the y half). -/
def predEdge : Heatmap :=
  (1 : ℚ) :: (List.replicate 319 (0 : ℚ) ++ ((1 : ℚ) :: List.replicate 127 (0 : ℚ)))

lemma maskedPred_predEdge : maskedPred predEdge = predEdge := by
  simp only [predEdge, maskedPred, List.map_cons, List.map_append, List.map_replicate]
  norm_num

lemma ballPosGrid_predEdge : ballPosGrid predEdge = (0, 0) := by
  have hpx : (maskedPred predEdge).take w_resize = (1 : ℚ) :: List.replicate 319 (0 : ℚ) := by
    rw [maskedPred_predEdge, predEdge, show w_resize = 319 + 1 from rfl,
      List.take_succ_cons, List.take_left' (by simp)]
  have hpy : (maskedPred predEdge).drop w_resize = (1 : ℚ) :: List.replicate 127 (0 : ℚ) := by
    rw [maskedPred_predEdge, predEdge, show w_resize = 319 + 1 from rfl,
      List.drop_succ_cons, List.drop_left' (by simp)]
  have hsx : ((maskedPred predEdge).take w_resize).sum = 1 := by
    rw [hpx]; simp
  have hsy : ((maskedPred predEdge).drop w_resize).sum = 1 := by
    rw [hpy]; simp
  simp only [ballPosGrid]
  rw [if_neg (by rw [hsx, hsy]; norm_num)]
  rw [hpx, hpy, argmaxList_peak_head 319 1 (by norm_num),
    argmaxList_peak_head 127 1 (by norm_num)]

lemma ballPosOriginal_predEdge : ballPosOriginal predEdge = (0, 0) := by
  simp [ballPosOriginal, ballPosGrid_predEdge]

/-- Counterexample to C2 as stated: for the heatmap `predEdge` the predicted
ball centre in original coordinates is `(0, 0)`, and the crop window's
`x_min` is clamped to `0` rather than `x_center - w_resize/2 = -160`, so the
crop window is not centred on the prediction for every global prediction. -/
theorem crop_centering_counterexample :
    predEdge.length = 448 ∧
    ballPosOriginal predEdge = (0, 0) ∧
    cropXmin predEdge ≠ ((ballPosOriginal predEdge).1 : ℤ) - (w_resize : ℤ) / 2 := by
  refine ⟨by simp [predEdge], ballPosOriginal_predEdge, ?_⟩
  rw [cropXmin, cropWindow, ballPosOriginal_predEdge]
  norm_num [get_crop_params, w_resize, h_resize, w_original, h_original]

/-- C2 (amended): the crop window is centred on the predicted ball position
whenever the centred window fits inside the original image: if
`w_resize/2 ≤ x_center`, `x_center + w_resize/2 ≤ w_original`,
`h_resize/2 ≤ y_center` and `y_center + h_resize/2 ≤ h_original`, then
`x_min = x_center - w_resize/2`, `x_max = x_center + w_resize/2`,
`y_min = y_center - h_resize/2` and `y_max = y_center + h_resize/2`.
At the image borders the window is clamped instead (see the
counterexample). -/
theorem crop_centered_when_unclamped (pred : Heatmap)
    (hx1 : (w_resize : ℤ) / 2 ≤ ((ballPosOriginal pred).1 : ℤ))
    (hx2 : ((ballPosOriginal pred).1 : ℤ) + (w_resize : ℤ) / 2 ≤ (w_original : ℤ))
    (hy1 : (h_resize : ℤ) / 2 ≤ ((ballPosOriginal pred).2 : ℤ))
    (hy2 : ((ballPosOriginal pred).2 : ℤ) + (h_resize : ℤ) / 2 ≤ (h_original : ℤ)) :
    cropXmin pred = ((ballPosOriginal pred).1 : ℤ) - (w_resize : ℤ) / 2 ∧
    cropXmax pred = ((ballPosOriginal pred).1 : ℤ) + (w_resize : ℤ) / 2 ∧
    cropYmin pred = ((ballPosOriginal pred).2 : ℤ) - (h_resize : ℤ) / 2 ∧
    cropYmax pred = ((ballPosOriginal pred).2 : ℤ) + (h_resize : ℤ) / 2 := by
  simp only [cropXmin, cropXmax, cropYmin, cropYmax, cropWindow,
    get_crop_params, w_resize, h_resize, w_original, h_original] at *
  omega

/-- A global heatmap whose masked argmax lies at grid position `(160, 64)`,
the middle of the grid. -/
def predMid : Heatmap :=
  (List.replicate 160 (0 : ℚ) ++ ((1 : ℚ) :: List.replicate 159 (0 : ℚ))) ++
    (List.replicate 64 (0 : ℚ) ++ ((1 : ℚ) :: List.replicate 63 (0 : ℚ)))

lemma maskedPred_predMid : maskedPred predMid = predMid := by
  simp only [predMid, maskedPred, List.map_cons, List.map_append, List.map_replicate]
  norm_num

lemma ballPosGrid_predMid : ballPosGrid predMid = (160, 64) := by
  have hpx : (maskedPred predMid).take w_resize =
      List.replicate 160 (0 : ℚ) ++ ((1 : ℚ) :: List.replicate 159 (0 : ℚ)) := by
    rw [maskedPred_predMid, predMid, List.take_left' (by simp [w_resize])]
  have hpy : (maskedPred predMid).drop w_resize =
      List.replicate 64 (0 : ℚ) ++ ((1 : ℚ) :: List.replicate 63 (0 : ℚ)) := by
    rw [maskedPred_predMid, predMid, List.drop_left' (by simp [w_resize])]
  have hsx : ((maskedPred predMid).take w_resize).sum = 1 := by
    rw [hpx]; simp
  have hsy : ((maskedPred predMid).drop w_resize).sum = 1 := by
    rw [hpy]; simp
  simp only [ballPosGrid]
  rw [if_neg (by rw [hsx, hsy]; norm_num)]
  rw [hpx, hpy, argmaxList_peak_mid 160 159 1 (by norm_num) (by norm_num),
    argmaxList_peak_mid 64 63 1 (by norm_num) (by norm_num)]

lemma ballPosOriginal_predMid : ballPosOriginal predMid = (960, 540) := by
  simp [ballPosOriginal, ballPosGrid_predMid, w_original, w_resize, h_original, h_resize]

/-- Witness for the amended C2 at `predMid`, whose predicted centre is
`(960, 540)`. -/
theorem crop_centered_when_unclamped_witness :
    ((w_resize : ℤ) / 2 ≤ ((ballPosOriginal predMid).1 : ℤ) ∧
     ((ballPosOriginal predMid).1 : ℤ) + (w_resize : ℤ) / 2 ≤ (w_original : ℤ) ∧
     (h_resize : ℤ) / 2 ≤ ((ballPosOriginal predMid).2 : ℤ) ∧
     ((ballPosOriginal predMid).2 : ℤ) + (h_resize : ℤ) / 2 ≤ (h_original : ℤ)) ∧
    (cropXmin predMid = ((ballPosOriginal predMid).1 : ℤ) - (w_resize : ℤ) / 2 ∧
     cropXmax predMid = ((ballPosOriginal predMid).1 : ℤ) + (w_resize : ℤ) / 2 ∧
     cropYmin predMid = ((ballPosOriginal predMid).2 : ℤ) - (h_resize : ℤ) / 2 ∧
     cropYmax predMid = ((ballPosOriginal predMid).2 : ℤ) + (h_resize : ℤ) / 2) := by
  have hb := ballPosOriginal_predMid
  have h1 : (w_resize : ℤ) / 2 ≤ ((ballPosOriginal predMid).1 : ℤ) := by
    rw [hb]; norm_num [w_resize]
  have h2 : ((ballPosOriginal predMid).1 : ℤ) + (w_resize : ℤ) / 2 ≤ (w_original : ℤ) := by
    rw [hb]; norm_num [w_resize, w_original]
  have h3 : (h_resize : ℤ) / 2 ≤ ((ballPosOriginal predMid).2 : ℤ) := by
    rw [hb]; norm_num [h_resize]
  have h4 : ((ballPosOriginal predMid).2 : ℤ) + (h_resize : ℤ) / 2 ≤ (h_original : ℤ) := by
    rw [hb]; norm_num [h_resize, h_original]
  exact ⟨⟨h1, h2, h3, h4⟩, crop_centered_when_unclamped predMid h1 h2 h3 h4⟩

/-- C3: centring-pad occurs exactly when the clamped crop is smaller than the
local input.  For every original image, global heatmap and in-range pixel
`(c, y, x)` of the local input (`y < h_resize`, `x < w_resize`): if the
clamped crop has full size `(w_resize, h_resize)` the local input equals the
crop itself, and otherwise the crop is written into the all-zero tensor at
offsets `x_pad = (w_resize - w_crop)/2`, `y_pad = (h_resize - h_crop)/2`,
with zeros everywhere outside that centred patch. -/
theorem crop_pad_characterization (original : Image) (pred : Heatmap) (c y x : ℕ)
    (hy : y < h_resize) (hx : x < w_resize) :
    ((hCrop pred = (h_resize : ℤ) ∧ wCrop pred = (w_resize : ℤ)) →
      cropOriginal original pred c y x =
        original c ((cropYmin pred).toNat + y) ((cropXmin pred).toNat + x)) ∧
    (¬(hCrop pred = (h_resize : ℤ) ∧ wCrop pred = (w_resize : ℤ)) →
      cropOriginal original pred c y x =
        (if (yPad pred).toNat ≤ y ∧ y < (yPad pred).toNat + (hCrop pred).toNat ∧
            (xPad pred).toNat ≤ x ∧ x < (xPad pred).toNat + (wCrop pred).toNat then
          original c ((cropYmin pred).toNat + (y - (yPad pred).toNat))
            ((cropXmin pred).toNat + (x - (xPad pred).toNat))
        else 0)) := by
  constructor
  · rintro ⟨h1, h2⟩
    simp only [cropOriginal]
    rw [if_neg (by push_neg; exact ⟨h1, h2⟩)]
    simp only [sliceAssign]
    rw [if_pos (by omega)]
    simp
  · intro h
    rw [not_and_or] at h
    simp only [cropOriginal]
    rw [if_pos h]
    simp only [sliceAssign]

/-- A concrete test image whose value records its coordinates. -/
def testImage : Image := fun c y x => (c : ℚ) * 10000000 + (y : ℚ) * 2000 + x

/-- Witness for C3 at `predMid`, `testImage` and pixel `(0, 0, 0)`. -/
theorem crop_pad_characterization_witness :
    (0 : ℕ) < h_resize ∧ (0 : ℕ) < w_resize ∧
    (((hCrop predMid = (h_resize : ℤ) ∧ wCrop predMid = (w_resize : ℤ)) →
      cropOriginal testImage predMid 0 0 0 =
        testImage 0 ((cropYmin predMid).toNat + 0) ((cropXmin predMid).toNat + 0)) ∧
     (¬(hCrop predMid = (h_resize : ℤ) ∧ wCrop predMid = (w_resize : ℤ)) →
      cropOriginal testImage predMid 0 0 0 =
        (if (yPad predMid).toNat ≤ 0 ∧ 0 < (yPad predMid).toNat + (hCrop predMid).toNat ∧
            (xPad predMid).toNat ≤ 0 ∧ 0 < (xPad predMid).toNat + (wCrop predMid).toNat then
          testImage 0 ((cropYmin predMid).toNat + (0 - (yPad predMid).toNat))
            ((cropXmin predMid).toNat + (0 - (xPad predMid).toNat))
        else 0))) :=
  ⟨by norm_num [h_resize], by norm_num [w_resize],
   crop_pad_characterization testImage predMid 0 0 0
     (by norm_num [h_resize]) (by norm_num [w_resize])⟩

/-! The inference demo's coordinate reconstruction (demo.py lines 50-66). -/

lemma pyInt_intCast (n : ℤ) : pyInt (n : ℚ) = n := by
  rw [pyInt]
  split
  · rw [← Int.cast_neg, Int.floor_intCast]; omega
  · rw [Int.floor_intCast]

/-- `x_center = int(ball_pos_x * w_ratio)` for a grid x position (TTNet.py
line 208, exact in floats, hence natural floor division). -/
def xCenterOf (gx : ℕ) : ℕ := gx * w_original / w_resize

/-- `y_center = int(ball_pos_y * h_ratio)` for a grid y position. -/
def yCenterOf (gy : ℕ) : ℕ := gy * h_original / h_resize

/-- `int(prediction_global[0] * w_ratio + prediction_local[0] - 320 / 2)`
(demo.py line 64, with `w_ratio = 1920. / 320.`). -/
def demoFinalX (gx lx : ℕ) : ℤ := pyInt ((gx : ℚ) * (1920 / 320) + (lx : ℚ) - 320 / 2)

/-- `int(prediction_global[1] * h_ratio + prediction_local[1] - 128 / 2)`
(demo.py line 65, with `h_ratio = 1080. / 128.`). -/
def demoFinalY (gy ly : ℕ) : ℤ := pyInt ((gy : ℚ) * (1080 / 128) + (ly : ℚ) - 128 / 2)

/-- C4: away from the image borders the demo's reconstruction inverts the
crop transform.  For every global grid prediction `(gx, gy)` whose crop
window is unclamped (`w_resize/2 ≤ x_center`, `x_center + w_resize/2 ≤
w_original`, and likewise for y) and every integer local prediction
`(lx, ly)` inside the crop, the demo's final position equals
`(x_min + lx, y_min + ly)` for the crop window of `get_crop_params`. -/
theorem demo_reconstruction_inverts_crop (gx gy lx ly : ℕ)
    (hx1 : w_resize / 2 ≤ xCenterOf gx)
    (hx2 : xCenterOf gx + w_resize / 2 ≤ w_original)
    (hy1 : h_resize / 2 ≤ yCenterOf gy)
    (hy2 : yCenterOf gy + h_resize / 2 ≤ h_original)
    (hlx : lx < w_resize) (hly : ly < h_resize) :
    demoFinalX gx lx =
      (get_crop_params (xCenterOf gx) (yCenterOf gy) (w_resize : ℤ) (h_resize : ℤ)
        (w_original : ℤ) (h_original : ℤ)).1 + lx ∧
    demoFinalY gy ly =
      (get_crop_params (xCenterOf gx) (yCenterOf gy) (w_resize : ℤ) (h_resize : ℤ)
        (w_original : ℤ) (h_original : ℤ)).2.2.1 + ly := by
  have hxc : xCenterOf gx = 6 * gx := by
    simp only [xCenterOf, w_original, w_resize]
    omega
  constructor
  · have hq : ((gx : ℚ) * (1920 / 320) + (lx : ℚ) - 320 / 2) =
        ((6 * (gx : ℤ) + (lx : ℤ) - 160 : ℤ) : ℚ) := by
      push_cast
      ring
    rw [demoFinalX, hq, pyInt_intCast]
    simp only [get_crop_params, w_resize, w_original] at *
    omega
  · have hfloor : ⌊(((gy * 1080 : ℕ) : ℚ) / ((128 : ℕ) : ℚ))⌋ = ((yCenterOf gy : ℕ) : ℤ) := by
      rw [Rat.floor_natCast_div_natCast]
      simp only [yCenterOf, h_original, h_resize]
      omega
    have hylb : (64 : ℚ) ≤ ((gy * 1080 : ℕ) : ℚ) / ((128 : ℕ) : ℚ) := by
      have h1 : ((64 : ℤ) : ℚ) ≤ ((⌊(((gy * 1080 : ℕ) : ℚ) / ((128 : ℕ) : ℚ))⌋ : ℤ) : ℚ) := by
        rw [hfloor]
        have : (64 : ℤ) ≤ (yCenterOf gy : ℤ) := by
          simp only [h_resize] at hy1
          omega
        exact_mod_cast this
      calc (64 : ℚ) = ((64 : ℤ) : ℚ) := by norm_num
        _ ≤ _ := h1
        _ ≤ _ := Int.floor_le _
    have hq : ((gy : ℚ) * (1080 / 128) + (ly : ℚ) - 128 / 2) =
        ((gy * 1080 : ℕ) : ℚ) / ((128 : ℕ) : ℚ) + (((ly : ℤ) - 64 : ℤ) : ℚ) := by
      push_cast
      ring
    have hnonneg : ¬ ((gy : ℚ) * (1080 / 128) + (ly : ℚ) - 128 / 2) < 0 := by
      rw [hq]
      have hylb2 := hylb
      push_cast at hylb2 ⊢
      have : (0 : ℚ) ≤ (ly : ℚ) := by positivity
      linarith
    rw [demoFinalY, pyInt, if_neg hnonneg, hq, Int.floor_add_int, hfloor]
    simp only [get_crop_params, h_resize, h_original] at *
    omega

/-- Witness for C4 at grid prediction `(160, 64)` and local prediction
`(5, 7)`. -/
theorem demo_reconstruction_inverts_crop_witness :
    (w_resize / 2 ≤ xCenterOf 160 ∧ xCenterOf 160 + w_resize / 2 ≤ w_original ∧
     h_resize / 2 ≤ yCenterOf 64 ∧ yCenterOf 64 + h_resize / 2 ≤ h_original ∧
     5 < w_resize ∧ 7 < h_resize) ∧
    (demoFinalX 160 5 =
      (get_crop_params (xCenterOf 160) (yCenterOf 64) (w_resize : ℤ) (h_resize : ℤ)
        (w_original : ℤ) (h_original : ℤ)).1 + 5 ∧
     demoFinalY 64 7 =
      (get_crop_params (xCenterOf 160) (yCenterOf 64) (w_resize : ℤ) (h_resize : ℤ)
        (w_original : ℤ) (h_original : ℤ)).2.2.1 + 7) :=
  ⟨⟨by decide, by decide, by decide, by decide, by decide, by decide⟩,
   demo_reconstruction_inverts_crop 160 64 5 7
     (by decide) (by decide) (by decide) (by decide) (by decide) (by decide)⟩

/-! The forward pass of `TTNet` (TTNet.py lines 159-177).  The convolutional
stages are abstract functions; a ball-detection stage returns the six values
of `BallDetection.forward` (prediction, features, and the four encoder
blocks), the events head is abstract but is fed the channel concatenation
that `EventsSpotting.forward` builds, and the segmentation head consumes the
four encoder blocks. -/

/-- The outputs of `BallDetection.forward`: `(out, features, out_block2,
out_block3, out_block4, out_block5)` per batch. -/
structure TTNetModel (blk ev seg : Type) where
  ballGlobalStage : List Image → List Heatmap × Image × blk × blk × blk × blk
  ballLocalStage : List Image → List Heatmap × Image × blk × blk × blk × blk
  eventsHead : Image → ev
  segmentation : blk → blk → blk → blk → seg

/-- `torch.cat((a, b), dim=1)` where `a` has `n` channels. -/
def catChannels (n : ℕ) (a b : Image) : Image :=
  fun c y x => if c < n then a c y x else b (c - n) y x

/-- `EventsSpotting.forward` (TTNet.py lines 100-113): it begins with
`torch.cat((global_features, local_features), dim=1)` on the two 256-channel
feature maps; the remaining layers are the abstract head. -/
def eventsSpotting {blk ev seg : Type} (net : TTNetModel blk ev seg)
    (global_features local_features : Image) : ev :=
  net.eventsHead (catChannels 256 global_features local_features)

/-- `TTNet.forward` (TTNet.py lines 159-177). -/
def forward {blk ev seg : Type} (net : TTNetModel blk ev seg)
    (original_batch_input resize_batch_input : List Image) :
    List Heatmap × List Heatmap × ev × seg :=
  let g := net.ballGlobalStage resize_batch_input
  let input_ball_local :=
    crop_original_batch original_batch_input resize_batch_input g.1
  let l := net.ballLocalStage input_ball_local
  let pred_eventspotting := eventsSpotting net g.2.1 l.2.1
  let pred_segmentation := net.segmentation g.2.2.1 g.2.2.2.1 g.2.2.2.2.1 g.2.2.2.2.2
  (g.1, l.1, pred_eventspotting, pred_segmentation)

/-- C5: `TTNet.forward` realises the coarse-then-refined two-stage pipeline.
For every model and input pair, the first output is the global stage's
prediction on the resized frames; the second is the local stage's prediction
on exactly `crop_original_batch` of the original frames with the global
prediction; the third is the events head applied to the channel
concatenation of the global and local feature maps; the fourth is the
segmentation head applied only to the global stage's encoder blocks; and the
outputs come in the order (global, local, eventspotting, segmentation). -/
theorem forward_two_stage_pipeline {blk ev seg : Type} (net : TTNetModel blk ev seg)
    (original_batch_input resize_batch_input : List Image) :
    (forward net original_batch_input resize_batch_input).1 =
      (net.ballGlobalStage resize_batch_input).1 ∧
    (forward net original_batch_input resize_batch_input).2.1 =
      (net.ballLocalStage
        (crop_original_batch original_batch_input resize_batch_input
          (net.ballGlobalStage resize_batch_input).1)).1 ∧
    (forward net original_batch_input resize_batch_input).2.2.1 =
      net.eventsHead (catChannels 256
        (net.ballGlobalStage resize_batch_input).2.1
        (net.ballLocalStage
          (crop_original_batch original_batch_input resize_batch_input
            (net.ballGlobalStage resize_batch_input).1)).2.1) ∧
    (forward net original_batch_input resize_batch_input).2.2.2 =
      net.segmentation
        (net.ballGlobalStage resize_batch_input).2.2.1
        (net.ballGlobalStage resize_batch_input).2.2.2.1
        (net.ballGlobalStage resize_batch_input).2.2.2.2.1
        (net.ballGlobalStage resize_batch_input).2.2.2.2.2 :=
  ⟨rfl, rfl, rfl, rfl⟩

/-! Interfaces of the training wrapper and model constructor.  The arities
and keyword lists below are transcribed from the sources named in each
comment. -/

/-- Positional parameters of `TTNet.forward` beyond `self` (TTNet.py line
159: `def forward(self, original_batch_input, resize_batch_input)`). -/
def ttnetForwardParams : ℕ := 2

/-- Values returned by `TTNet.forward` (TTNet.py line 177: it returns
`pred_ball_global, pred_ball_local, pred_eventspotting, pred_segmentation`). -/
def ttnetForwardReturns : ℕ := 4

/-- Positional arguments `Unbalance_Loss_Model.forward` passes to the wrapped
model (unbalanced_loss_model.py lines 24-26: `self.model(original_batch_input,
resize_batch_input, org_ball_pos_xy)`). -/
def wrapperCallArgs : ℕ := 3

/-- Values `Unbalance_Loss_Model.forward` unpacks from the wrapped model's
result (unbalanced_loss_model.py line 24: five names on the left of `=`). -/
def wrapperUnpackCount : ℕ := 5

/-- Keyword parameters accepted by `TTNet.__init__` (TTNet.py line 150:
`def __init__(self, dropout_p, input_size=(320, 128))`). -/
def ttnetInitKeywords : List String := ["dropout_p", "input_size"]

/-- Keyword arguments `create_model` passes to `TTNet` when `configs.arch`
is ttnet (model_utils.py lines 27-28). -/
def createModelTTNetKwargs : List String :=
  ["dropout_p", "tasks", "input_size", "thresh_ball_pos_mask"]

/-- A Python keyword call binds only if every keyword passed is accepted
(otherwise `TypeError: unexpected keyword argument`). -/
def kwargsAccepted (accepted passed : List String) : Bool :=
  passed.all (fun k => accepted.contains k)

/-- C6 fails on the code: `create_model` passes the keyword arguments
`tasks` and `thresh_ball_pos_mask`, which `TTNet.__init__` does not accept
(a `TypeError` at construction); the training wrapper passes three
positional arguments to the model where `TTNet.forward` accepts two, and
unpacks five results where `TTNet.forward` returns four.  The wrapper's
call into the model therefore does not match `TTNet.forward`'s interface. -/
theorem training_wrapper_interface_mismatch :
    kwargsAccepted ttnetInitKeywords createModelTTNetKwargs = false ∧
    wrapperCallArgs ≠ ttnetForwardParams ∧
    wrapperUnpackCount ≠ ttnetForwardReturns := by
  refine ⟨rfl, ?_, ?_⟩ <;> decide

/-- `create_target_events` (ttnet_data_utils.py lines 64-69): a length-2
zero tensor, with a 1 written at index `event_class` when `event_class < 2`. -/
def create_target_events (event_class : ℕ) : List ℚ :=
  let target_event := List.replicate 2 (0 : ℚ)
  if event_class < 2 then target_event.set event_class 1 else target_event

/-- C7: `create_target_events` always returns a length-2 vector that
one-hot encodes the bounce/net event: index 0 for class 0, index 1 for
class 1, and the all-zero vector for every class at least 2. -/
theorem create_target_events_one_hot (event_class : ℕ) :
    (create_target_events event_class).length = 2 ∧
    create_target_events event_class =
      (if event_class = 0 then [1, 0]
       else if event_class = 1 then [0, 1]
       else [0, 0]) := by
  rcases event_class with _ | _ | n
  · exact ⟨rfl, rfl⟩
  · exact ⟨rfl, rfl⟩
  · refine ⟨?_, ?_⟩
    · simp [create_target_events]
    · rw [create_target_events]
      simp only [if_neg (by omega : ¬ n + 1 + 1 < 2)]
      rw [if_neg (by omega : ¬ n + 1 + 1 = 0), if_neg (by omega : ¬ n + 1 + 1 = 1)]
      rfl

/-- `gaussian_1d` (ttnet_data_utils.py lines 31-34) computes
`exp(-((pos - muy)/sigma)^2 / 2)` elementwise in floating point.  The
exponential is transcendental, and the properties verified here depend only
on where the Gaussian is written, so the pointwise Gaussian is an arbitrary
parameter `g` (position, muy, sigma). -/
def create_target_ball (g : ℕ → ℚ → ℚ → ℚ) (ballX ballY sigma : ℚ)
    (w h : ℕ) (thresh_mask : ℚ) : List ℚ :=
  if (ballX < (w : ℚ) ∧ 0 < ballX) ∧ (ballY < (h : ℚ) ∧ 0 < ballY) then
    (((List.range w).map (fun i => g i ballX sigma)) ++
      ((List.range h).map (fun i => g i ballY sigma))).map
        (fun v => if v < thresh_mask then 0 else v)
  else
    List.replicate (w + h) 0

/-- C9: `create_target_ball` always returns a vector of length `w + h`, and
for every ball position that is not strictly inside the frame (`x ≤ 0` or
`x ≥ w` or `y ≤ 0` or `y ≥ h`) it returns the all-zero vector; the Gaussian
is written only when `0 < x < w` and `0 < y < h`. -/
theorem create_target_ball_zero_outside (g : ℕ → ℚ → ℚ → ℚ)
    (ballX ballY sigma : ℚ) (w h : ℕ) (thresh_mask : ℚ) :
    (create_target_ball g ballX ballY sigma w h thresh_mask).length = w + h ∧
    ((ballX ≤ 0 ∨ (w : ℚ) ≤ ballX ∨ ballY ≤ 0 ∨ (h : ℚ) ≤ ballY) →
      create_target_ball g ballX ballY sigma w h thresh_mask =
        List.replicate (w + h) 0) := by
  constructor
  · rw [create_target_ball]
    split
    · simp
    · simp
  · intro hout
    rw [create_target_ball, if_neg]
    rintro ⟨⟨h1, h2⟩, h3, h4⟩
    rcases hout with h | h | h | h <;> linarith

/-- A concrete stand-in for the Gaussian used by the C9 witness. -/
def constGauss : ℕ → ℚ → ℚ → ℚ := fun _ _ _ => 1

/-- Witness for C9 at ball position `(0, 5)` on a 320x128 grid (the ball is
on the left border, so the target is all zeros). -/
theorem create_target_ball_zero_outside_witness :
    ((0 : ℚ) ≤ 0 ∨ (320 : ℚ) ≤ 0 ∨ (5 : ℚ) ≤ 0 ∨ (128 : ℚ) ≤ 5) ∧
    (create_target_ball constGauss 0 5 1 320 128 (1 / 100)).length = 320 + 128 ∧
    create_target_ball constGauss 0 5 1 320 128 (1 / 100) =
      List.replicate (320 + 128) 0 :=
  ⟨Or.inl le_rfl,
   (create_target_ball_zero_outside constGauss 0 5 1 320 128 (1 / 100)).1,
   (create_target_ball_zero_outside constGauss 0 5 1 320 128 (1 / 100)).2
     (Or.inl le_rfl)⟩

/-! `load_weights_local_stage` (model_utils.py lines 68-78).  State-dict keys
are strings, modelled as `List Char`; a Python dict is an association list in
which a later binding overwrites an earlier one, and lookup therefore takes
the last matching binding. -/

/-- A state-dict key. -/
abbrev Key : Type := List Char

/-- Python's substring test `needle in hay`. -/
def hasSub (needle : Key) : Key → Bool
  | [] => needle.isEmpty
  | c :: rest => needle.isPrefixOf (c :: rest) || hasSub needle rest

/-- Helper for `str.split('.')`: `acc` holds the current component reversed. -/
def splitDotAux : Key → Key → List Key
  | [], acc => [acc.reverse]
  | c :: rest, acc =>
      if c = '.' then acc.reverse :: splitDotAux rest [] else splitDotAux rest (c :: acc)

/-- Python `layer_name.split('.')`. -/
def splitDot (k : Key) : List Key := splitDotAux k []

/-- Python `'.'.join(parts)`. -/
def joinDot : List Key → Key
  | [] => []
  | [p] => p
  | p :: q :: rest => p ++ '.' :: joinDot (q :: rest)

/-- The substring `'ball_global_stage'` tested by the loop. -/
def globalTag : Key := "ball_global_stage".toList

/-- The component `'ball_local_stage'` written at index 1. -/
def localTag : Key := "ball_local_stage".toList

/-- `layer_name_parts = layer_name.split('.'); layer_name_parts[1] =
'ball_local_stage'; local_name = '.'.join(layer_name_parts)` (model_utils.py
lines 73-75): the second dot-component is overwritten unconditionally. -/
def localNameOf (k : Key) : Key := joinDot ((splitDot k).set 1 localTag)

/-- The bindings the loop adds: one per key containing `'ball_global_stage'`,
mapped under `localNameOf` to the same value. -/
def localizedPairs {V : Type} (d : List (Key × V)) : List (Key × V) :=
  (d.filter (fun p => hasSub globalTag p.1)).map (fun p => (localNameOf p.1, p.2))

/-- `load_weights_local_stage` (model_utils.py lines 68-78): the result is
`{**pretrained_dict, **local_weights_dict}`.  `layer_name_parts[1] = ...`
raises `IndexError` when a matching key has fewer than two dot-components,
hence the `Option`. -/
def load_weights_local_stage {V : Type} (pretrained_dict : List (Key × V)) :
    Option (List (Key × V)) :=
  if pretrained_dict.all
      (fun p => !hasSub globalTag p.1 || decide (2 ≤ (splitDot p.1).length)) then
    some (pretrained_dict ++ localizedPairs pretrained_dict)
  else
    none

/-- Dict lookup on an association list where a later binding overwrites an
earlier one. -/
def lookupLast {V : Type} : List (Key × V) → Key → Option V
  | [], _ => none
  | p :: rest, k =>
      match lookupLast rest k with
      | some v => some v
      | none => if p.1 = k then some p.2 else none

lemma hasSub_of_isPrefixOf {needle hay : Key} (h : needle.isPrefixOf hay = true) :
    hasSub needle hay = true := by
  cases hay with
  | nil =>
      cases needle with
      | nil => rfl
      | cons c t => simp at h
  | cons c rest => simp [hasSub, h]

lemma hasSub_append_left (needle xs : Key) {hay : Key} (h : hasSub needle hay = true) :
    hasSub needle (xs ++ hay) = true := by
  induction xs with
  | nil => simpa using h
  | cons c t ih => simp [hasSub, ih]

lemma isPrefixOf_joinDot_cons (t : Key) (rest : List Key) :
    t.isPrefixOf (joinDot (t :: rest)) = true := by
  cases rest with
  | nil =>
      simp only [joinDot]
      rw [List.isPrefixOf_iff_prefix]
  | cons q r =>
      rw [joinDot, List.isPrefixOf_iff_prefix]
      exact List.prefix_append t _

lemma hasSub_localNameOf {k : Key} (h2 : 2 ≤ (splitDot k).length) :
    hasSub localTag (localNameOf k) = true := by
  rcases hs : splitDot k with _ | ⟨p0, _ | ⟨p1, rest⟩⟩
  · rw [hs] at h2; simp at h2
  · rw [hs] at h2; simp at h2
  · rw [localNameOf, hs]
    have hset : (p0 :: p1 :: rest).set 1 localTag = p0 :: localTag :: rest := rfl
    rw [hset, joinDot]
    have h1 : hasSub localTag (joinDot (localTag :: rest)) = true :=
      hasSub_of_isPrefixOf (isPrefixOf_joinDot_cons _ _)
    have h3 := hasSub_append_left localTag (p0 ++ ['.']) h1
    simpa using h3

lemma lookupLast_append {V : Type} (a b : List (Key × V)) (k : Key) :
    lookupLast (a ++ b) k =
      match lookupLast b k with
      | some v => some v
      | none => lookupLast a k := by
  induction a with
  | nil =>
      cases hb : lookupLast b k <;> simp [lookupLast, hb]
  | cons p rest ih =>
      rw [List.cons_append]
      cases hb : lookupLast b k <;>
        cases hr : lookupLast (rest ++ b) k <;>
          simp_all [lookupLast]

lemma lookupLast_eq_none {V : Type} {l : List (Key × V)} {k : Key}
    (h : ∀ p ∈ l, p.1 ≠ k) : lookupLast l k = none := by
  induction l with
  | nil => rfl
  | cons p rest ih =>
      have hrest : lookupLast rest k = none :=
        ih (fun q hq => h q (List.mem_cons_of_mem _ hq))
      simp only [lookupLast, hrest]
      rw [if_neg (h p (List.mem_cons_self _ _))]

lemma lookupLast_of_mem_nodup {V : Type} {l : List (Key × V)}
    (hl : (l.map Prod.fst).Nodup) {p : Key × V} (hp : p ∈ l) :
    lookupLast l p.1 = some p.2 := by
  induction l with
  | nil => cases hp
  | cons q rest ih =>
      rw [List.map_cons, List.nodup_cons] at hl
      rcases List.mem_cons.mp hp with rfl | hmem
      · have hnone : lookupLast rest p.1 = none :=
          lookupLast_eq_none (fun r hr he =>
            hl.1 (he ▸ List.mem_map_of_mem Prod.fst hr))
        simp [lookupLast, hnone]
      · have := ih hl.2 hmem
        simp [lookupLast, this]

lemma lookupLast_isSome_mem {V : Type} {l : List (Key × V)} {k : Key}
    (h : (lookupLast l k).isSome = true) : ∃ p ∈ l, p.1 = k := by
  induction l with
  | nil => simp [lookupLast] at h
  | cons q rest ih =>
      cases hr : lookupLast rest k with
      | some v =>
          obtain ⟨p, hp, he⟩ := ih (by rw [hr]; rfl)
          exact ⟨p, List.mem_cons_of_mem _ hp, he⟩
      | none =>
          simp only [lookupLast, hr] at h
          by_cases he : q.1 = k
          · exact ⟨q, List.mem_cons_self _ _, he⟩
          · rw [if_neg he] at h; simp at h

/-- A dict whose only key has `'ball_global_stage'` as its FIRST
dot-component. -/
def dictBad : List (Key × ℕ) := [("ball_global_stage.conv.weight".toList, 0)]

/-- Counterexample to C10 as stated: on `dictBad`, whose key
`ball_global_stage.conv.weight` contains `'ball_global_stage'`, the result
does not contain the key with that component replaced
(`ball_local_stage.conv.weight`); the code instead overwrites the component
at index 1, producing `ball_global_stage.ball_local_stage.weight`. -/
theorem load_weights_counterexample :
    (load_weights_local_stage dictBad).isSome = true ∧
    (load_weights_local_stage dictBad).bind
      (fun m => lookupLast m ("ball_local_stage.conv.weight".toList)) = none ∧
    (load_weights_local_stage dictBad).bind
      (fun m => lookupLast m ("ball_global_stage.ball_local_stage.weight".toList)) =
        some 0 := by
  refine ⟨?_, ?_, ?_⟩ <;> decide

/-- C10 (amended): `load_weights_local_stage` copies global-stage weights
onto the local stage by rewriting the SECOND dot-component of each key
containing `'ball_global_stage'` to `'ball_local_stage'`, and changes
nothing else.  For every dict (distinct keys) in which every key containing
`'ball_global_stage'` has at least two dot-components (otherwise the code
raises `IndexError`) and the rewritten counterpart keys are pairwise
distinct: the call succeeds; every key not containing `'ball_local_stage'`
keeps its original value; every key containing `'ball_global_stage'` gains
the counterpart key with its second dot-component replaced, mapped to the
same value (overwriting any pre-existing entry); and no other keys are
present. -/
theorem load_weights_local_stage_amended {V : Type} (d : List (Key × V))
    (hparts : ∀ p ∈ d, hasSub globalTag p.1 = true → 2 ≤ (splitDot p.1).length)
    (hnodup : (d.map Prod.fst).Nodup)
    (hctr : ((d.filter (fun p => hasSub globalTag p.1)).map
      (fun p => localNameOf p.1)).Nodup) :
    load_weights_local_stage d = some (d ++ localizedPairs d) ∧
    (∀ k, hasSub localTag k = false →
      lookupLast (d ++ localizedPairs d) k = lookupLast d k) ∧
    (∀ p ∈ d, hasSub globalTag p.1 = true →
      lookupLast (d ++ localizedPairs d) (localNameOf p.1) = some p.2) ∧
    (∀ k, (lookupLast (d ++ localizedPairs d) k).isSome = true →
      (lookupLast d k).isSome = true ∨
        ∃ p ∈ d, hasSub globalTag p.1 = true ∧ k = localNameOf p.1) := by
  have hloc : ∀ q ∈ localizedPairs d, hasSub localTag q.1 = true := by
    intro q hq
    rw [localizedPairs] at hq
    obtain ⟨p, hpf, rfl⟩ := List.mem_map.mp hq
    obtain ⟨hpd, hpm⟩ := List.mem_filter.mp hpf
    exact hasSub_localNameOf (hparts p hpd hpm)
  refine ⟨?_, ?_, ?_, ?_⟩
  · rw [load_weights_local_stage, if_pos]
    rw [List.all_eq_true]
    intro p hp
    by_cases hm : hasSub globalTag p.1 = true
    · simp [hm, hparts p hp hm]
    · rw [Bool.not_eq_true] at hm
      simp [hm]
  · intro k hk
    rw [lookupLast_append]
    have hnone : lookupLast (localizedPairs d) k = none :=
      lookupLast_eq_none (fun q hq he => by
        have := hloc q hq
        rw [he, hk] at this
        exact Bool.false_ne_true this)
    rw [hnone]
  · intro p hp hm
    rw [lookupLast_append]
    have hmem : (localNameOf p.1, p.2) ∈ localizedPairs d := by
      rw [localizedPairs]
      exact List.mem_map.mpr ⟨p, List.mem_filter.mpr ⟨hp, hm⟩, rfl⟩
    have hkeys : ((localizedPairs d).map Prod.fst).Nodup := by
      rw [localizedPairs, List.map_map]
      exact hctr
    have hlook := lookupLast_of_mem_nodup hkeys hmem
    rw [hlook]
  · intro k hk
    rw [lookupLast_append] at hk
    cases hb : lookupLast (localizedPairs d) k with
    | some v =>
        right
        have hsome : (lookupLast (localizedPairs d) k).isSome = true := by
          rw [hb]; rfl
        obtain ⟨q, hq, he⟩ := lookupLast_isSome_mem hsome
        rw [localizedPairs] at hq
        obtain ⟨p, hpf, hfe⟩ := List.mem_map.mp hq
        obtain ⟨hpd, hpm⟩ := List.mem_filter.mp hpf
        refine ⟨p, hpd, hpm, ?_⟩
        rw [← he, ← hfe]
    | none =>
        left
        rw [hb] at hk
        exact hk

/-- A representative pretrained state dict for the C10 witness. -/
def dictGood : List (Key × ℕ) :=
  [("model.ball_global_stage.conv1.weight".toList, 7),
   ("model.events_spotting.fc1.weight".toList, 8)]

/-- Witness for the amended C10 at `dictGood`. -/
theorem load_weights_local_stage_amended_witness :
    (∀ p ∈ dictGood, hasSub globalTag p.1 = true → 2 ≤ (splitDot p.1).length) ∧
    (dictGood.map Prod.fst).Nodup ∧
    ((dictGood.filter (fun p => hasSub globalTag p.1)).map
      (fun p => localNameOf p.1)).Nodup ∧
    (load_weights_local_stage dictGood = some (dictGood ++ localizedPairs dictGood) ∧
     (∀ k, hasSub localTag k = false →
       lookupLast (dictGood ++ localizedPairs dictGood) k = lookupLast dictGood k) ∧
     (∀ p ∈ dictGood, hasSub globalTag p.1 = true →
       lookupLast (dictGood ++ localizedPairs dictGood) (localNameOf p.1) = some p.2) ∧
     (∀ k, (lookupLast (dictGood ++ localizedPairs dictGood) k).isSome = true →
       (lookupLast dictGood k).isSome = true ∨
         ∃ p ∈ dictGood, hasSub globalTag p.1 = true ∧ k = localNameOf p.1)) :=
  ⟨by decide, by decide, by decide,
   load_weights_local_stage_amended dictGood (by decide) (by decide) (by decide)⟩

end TTNetV
